import Mathlib

/-!
Shallow embedding of `conection_spead.py`, a utility that synchronizes
tabular data from local CSV/Parquet files into Google Sheets tabs.

Datasets (pandas DataFrames normalized with `dtype=str` / `fillna("")`)
are modelled as a column sequence plus a row sequence of string cells.
The remote spreadsheet service (gspread) is modelled by the value region
of each tab: the list of rows that `get_all_values` returns.
-/

namespace SheetSync

/-- A normalized tabular dataset: ordered column names plus ordered rows of
string cells (the DataFrame after `dtype=str` reading and `fillna("")`). -/
structure Dataset where
  columns : List String
  rows : List (List String)
deriving DecidableEq, Repr

/-- Python errors that the script can raise or meet. -/
inductive PyError where
  | unicodeDecodeError (msg : String)
  | typeError (msg : String)
  | apiError (msg : String)
deriving DecidableEq, Repr

/-- The value region of a worksheet tab, as `get_all_values` returns it. -/
abbrev Grid := List (List String)

/-- `DataFrame.equals`: same column labels in order, same cell values in
order (both frames hold plain strings, so dtype always agrees). -/
def dfEquals (a b : Dataset) : Bool :=
  a.columns == b.columns && a.rows == b.rows

/-- Pad a raw row to the header width with empty strings: the
`pd.DataFrame(data[1:], columns=data[0])` constructor fills missing cells
with NaN and the following `fillna("")` turns them into `""`. -/
def padRow (n : Nat) (r : List String) : List String :=
  r ++ List.replicate (n - r.length) ""

/-- `fetch_sheet_as_df` (lines 110-122): `None` when the tab does not
exist; an empty DataFrame when the tab has no values; otherwise the first
raw row is the header and the remaining rows are the data rows. -/
def fetch_sheet_as_df (tab : Option Grid) : Option Dataset :=
  match tab with
  | none => none
  | some [] => some ⟨[], []⟩
  | some (h :: t) => some ⟨h, t.map (padRow h.length)⟩

/-- `batch_size = 100` (line 141). -/
def batch_size : Nat := 100

/-- One step of the write loop of `replace_sheet` (lines 142-144), with
explicit fuel so that the function is structurally recursive: on each pass
the loop takes the next `batch_size` rows and records the 1-based sheet
row at which `insert_rows` places them. -/
def batchLoop (fuel : Nat) (pending : List (List String)) (i : Nat) :
    List (List (List String) × Nat) :=
  match fuel with
  | 0 => []
  | fuel + 1 =>
    match pending with
    | [] => []
    | _ :: _ => (pending.take batch_size, i + 2) ::
        batchLoop fuel (pending.drop batch_size) (i + batch_size)

/-- The batches written by `replace_sheet`'s loop
`for i in range(0, len(rows), batch_size)`: each entry is the block
`rows[i : i + batch_size]` paired with the sheet row `i + 2`. -/
def batchWrites (pending : List (List String)) : List (List (List String) × Nat) :=
  batchLoop pending.length pending 0

/-- A remote write call issued by `replace_sheet` after the fresh tab is
created: `ws.insert_row(values, index)` or `ws.insert_rows(values, row)`. -/
inductive WriteOp where
  | insert_row (values : List String) (index : Nat)
  | insert_rows (values : List (List String)) (row : Nat)
deriving DecidableEq, Repr

/-- The sequence of write calls of `replace_sheet` (lines 139-144): the
header row at sheet row 1 first, then the data batches. -/
def replace_sheet_ops (df : Dataset) : List WriteOp :=
  WriteOp.insert_row df.columns 1 ::
    (batchWrites df.rows).map (fun b => WriteOp.insert_rows b.1 b.2)

/-- Effect of one gspread insert call on the value region of a tab: the
new rows are spliced in before the (1-based) target row. -/
def applyWrite (g : Grid) : WriteOp → Grid
  | .insert_row v idx => g.take (idx - 1) ++ [v] ++ g.drop (idx - 1)
  | .insert_rows vs row => g.take (row - 1) ++ vs ++ g.drop (row - 1)

/-- Run a sequence of write calls against a tab's value region. -/
def applyWrites (ops : List WriteOp) (g : Grid) : Grid :=
  ops.foldl applyWrite g

/-- Value region of the tab rebuilt by `replace_sheet` (lines 125-144):
the old tab is deleted (if present), a fresh empty tab is created, and the
write calls are applied to it. -/
def replaceGrid (df : Dataset) : Grid :=
  applyWrites (replace_sheet_ops df) []

/-- Outcome of one target in `process_all`, matching the status lines it
prints: path missing, no change, or tab replaced. -/
inductive TStatus where
  | skipped
  | noChange
  | replaced
deriving DecidableEq, Repr

/-- The per-target compare-and-write step of `process_all` (lines
169-176): skip when the fetched tab equals the local dataset, otherwise
replace the tab wholesale. -/
def syncStep (dfLocal : Dataset) (tab : Option Grid) : TStatus × Option Grid :=
  match fetch_sheet_as_df tab with
  | some r =>
      if dfEquals r dfLocal then (.noChange, tab)
      else (.replaced, some (replaceGrid dfLocal))
  | none => (.replaced, some (replaceGrid dfLocal))

/-- Lexicographic comparison of code-point sequences: the order Python's
`sorted` uses on strings. -/
def lexLe : List Nat → List Nat → Bool
  | [], _ => true
  | _ :: _, [] => false
  | a :: as, b :: bs => if a < b then true else if b < a then false else lexLe as bs

/-- String comparison by code points, as Python compares `str` values. -/
def pyLe (a b : String) : Bool :=
  lexLe (a.data.map Char.toNat) (b.data.map Char.toNat)

/-- Insert into an already sorted list, keeping earlier-inserted equal
elements in place. -/
def insertSorted (x : String) : List String → List String
  | [] => [x]
  | y :: ys => if pyLe x y then x :: y :: ys else y :: insertSorted x ys

/-- Python's `sorted` on strings: ascending lexicographic order. -/
def pySorted : List String → List String
  | [] => []
  | x :: xs => insertSorted x (pySorted xs)

/-- The extension part of `os.path.splitext`: the suffix from the last
dot, provided some earlier character of the name is not a dot (so names
made only of leading dots have no extension). -/
def splitext_ext (s : String) : String :=
  let cs := s.data
  let idxs := (List.range cs.length).filter (fun i =>
    cs.getD i ' ' == '.' && (List.range i).any (fun j => cs.getD j ' ' != '.'))
  match idxs.getLast? with
  | some i => String.mk (cs.drop i)
  | none => ""

/-- `str.lower`, character by character. -/
def strLower (s : String) : String :=
  String.mk (s.data.map Char.toLower)

/-- The prioritized encoding list of `read_path_to_df` (line 54). -/
def encodings_to_try : List String :=
  ["utf-8", "latin-1", "iso-8859-1", "cp1252"]

/-- The filesystem and external parsers seen by the Loader: directory
test, existence test, directory listing, and the outcome of
`pd.read_csv(file, dtype=str, encoding=enc)` / `pd.read_parquet(file)`. -/
structure FS where
  isDir : String → Bool
  pathExists : String → Bool
  listdir : String → List String
  readCsv : String → String → Except PyError Dataset
  readParquet : String → Except PyError Dataset

/-- The encoding-fallback loop of `read_csv_with_encoding` (lines 58-65):
try each encoding in priority order, swallowing only `UnicodeDecodeError`;
first success wins.  When every encoding fails the source executes
`raise UnicodeDecodeError(msg)` with a single argument, and since that
constructor takes exactly five arguments Python raises a `TypeError`
whose message does not mention the file. -/
def tryEncodings (fs : FS) (file : String) : List String → Except PyError Dataset
  | [] => .error (.typeError "function takes exactly 5 arguments (1 given)")
  | enc :: rest =>
    match fs.readCsv enc file with
    | .ok d => .ok d
    | .error (.unicodeDecodeError _) => tryEncodings fs file rest
    | .error e => .error e

/-- `read_csv_with_encoding` (lines 58-65). -/
def read_csv_with_encoding (fs : FS) (file : String) : Except PyError Dataset :=
  tryEncodings fs file encodings_to_try

/-- Extend a column accumulator with one label, keeping first
appearances only: how `pd.concat` builds the union of column axes. -/
def addCol (acc : List String) (c : String) : List String :=
  if c ∈ acc then acc else acc ++ [c]

/-- Union of the column sequences of several frames, in order of first
appearance (`pd.concat` with the default `join` and `sort`). -/
def unionCols (dfs : List Dataset) : List String :=
  dfs.foldl (fun acc d => d.columns.foldl addCol acc) []

/-- Align one row, labelled by `cols`, to the target column sequence `u`:
a column absent from `cols` gets NaN, which the following `fillna("")`
turns into the empty string. -/
def reindexRow (u cols : List String) (r : List String) : List String :=
  u.map (fun c => ((cols.zip r).lookup c).getD "")

/-- `pd.concat(dfs, ignore_index=True).fillna("")` (lines 107-108):
columns are the union in order of first appearance, rows follow the
frame order with each row aligned to the union. -/
def concatDfs (dfs : List Dataset) : Dataset :=
  let u := unionCols dfs
  ⟨u, dfs.flatMap (fun d => d.rows.map (reindexRow u d.columns))⟩

/-- Directory pass of `read_path_to_df` (lines 68-84): visit the listing
in sorted order, parse `.csv` and `.parquet` entries, skip other
extensions, and skip (with a logged error) any entry whose read fails. -/
def collectDir (fs : FS) (path : String) (names : List String) : List Dataset :=
  names.foldl (fun dfs fname =>
    let full := path ++ "/" ++ fname
    let ext := strLower (splitext_ext fname)
    if ext = ".csv" then
      match read_csv_with_encoding fs full with
      | .ok d => dfs ++ [d]
      | .error _ => dfs
    else if ext = ".parquet" then
      match fs.readParquet full with
      | .ok d => dfs ++ [d]
      | .error _ => dfs
    else dfs) []

/-- `read_path_to_df` (lines 47-108).  Directory: concatenate every
readable recognized file in sorted listing order.  Single file: parse by
extension, returning an empty frame for a missing path or an unsupported
extension; a `.csv` or `.parquet` read failure propagates. -/
def read_path_to_df (fs : FS) (path : String) : Except PyError Dataset :=
  if fs.isDir path then
    let dfs := collectDir fs path (pySorted (fs.listdir path))
    if dfs = [] then .ok ⟨[], []⟩ else .ok (concatDfs dfs)
  else if fs.pathExists path = false then .ok ⟨[], []⟩
  else
    let ext := strLower (splitext_ext path)
    if ext = ".csv" then
      match read_csv_with_encoding fs path with
      | .ok d => .ok (concatDfs [d])
      | .error e => .error e
    else if ext = ".parquet" then
      match fs.readParquet path with
      | .ok d => .ok (concatDfs [d])
      | .error e => .error e
    else .ok ⟨[], []⟩

/-- One configured (tab name, source path) pair of a spreadsheet entry. -/
structure Entry where
  sheet_name : String
  path : String

/-- Failures the remote service can inject while a target is processed:
a transport error while fetching a tab, or one while replacing it. -/
structure Remote where
  fetchFail : String → Option PyError
  replaceFail : String → Option PyError

/-- The tabs of one spreadsheet, by name. -/
abbrev Tabs := String → Option Grid

/-- The inner loop of `process_all` (lines 161-176) over one
spreadsheet's entries.  A missing source path is skipped and processing
continues; every other exception — a read failure, a transport failure in
`fetch_sheet_as_df`, or a failure inside `replace_sheet` — propagates out
of the loop, because the body has no exception handler. -/
def process_entries (fs : FS) (rem : Remote) :
    List Entry → Tabs → Except PyError (List TStatus × Tabs)
  | [], tabs => .ok ([], tabs)
  | e :: rest, tabs =>
    if fs.pathExists e.path = false then
      match process_entries fs rem rest tabs with
      | .ok (sts, tabs1) => .ok (.skipped :: sts, tabs1)
      | .error err => .error err
    else
      match read_path_to_df fs e.path with
      | .error err => .error err
      | .ok dfLocal =>
        match rem.fetchFail e.sheet_name with
        | some err => .error err
        | none =>
          match fetch_sheet_as_df (tabs e.sheet_name) with
          | some r =>
            if dfEquals r dfLocal then
              match process_entries fs rem rest tabs with
              | .ok (sts, tabs1) => .ok (.noChange :: sts, tabs1)
              | .error err => .error err
            else
              match rem.replaceFail e.sheet_name with
              | some err => .error err
              | none =>
                match process_entries fs rem rest
                    (fun n => if n = e.sheet_name then some (replaceGrid dfLocal) else tabs n) with
                | .ok (sts, tabs1) => .ok (.replaced :: sts, tabs1)
                | .error err => .error err
          | none =>
            match rem.replaceFail e.sheet_name with
            | some err => .error err
            | none =>
              match process_entries fs rem rest
                  (fun n => if n = e.sheet_name then some (replaceGrid dfLocal) else tabs n) with
              | .ok (sts, tabs1) => .ok (.replaced :: sts, tabs1)
              | .error err => .error err

/-! ### Lemmas about the batched write loop -/

lemma batchLoop_nil (f i : Nat) : batchLoop f [] i = [] := by
  cases f <;> rfl

lemma length_drop_le {p : List (List String)} {f : Nat} (hf : p.length ≤ f + 1) :
    (p.drop batch_size).length ≤ f := by
  simp only [List.length_drop, batch_size]
  omega

lemma batchLoop_fuel : ∀ (f g : Nat) (p : List (List String)) (i : Nat),
    p.length ≤ f → p.length ≤ g → batchLoop f p i = batchLoop g p i := by
  intro f
  induction f with
  | zero =>
    intro g p i hf _
    have hp : p = [] := List.eq_nil_of_length_eq_zero (Nat.le_zero.mp hf)
    subst hp
    rw [batchLoop_nil, batchLoop_nil]
  | succ f ih =>
    intro g p i hf hg
    cases p with
    | nil => rw [batchLoop_nil, batchLoop_nil]
    | cons x xs =>
      cases g with
      | zero => exact absurd (Nat.le_zero.mp hg) (by simp)
      | succ g =>
        show (_ :: batchLoop f _ _) = (_ :: batchLoop g _ _)
        rw [ih g _ _ (length_drop_le hf) (length_drop_le hg)]

lemma batchLoop_cons (f : Nat) (p : List (List String)) (i : Nat)
    (hp : p ≠ []) (hf : p.length ≤ f) :
    batchLoop f p i = (p.take batch_size, i + 2) ::
      batchLoop (p.drop batch_size).length (p.drop batch_size) (i + batch_size) := by
  cases f with
  | zero => exact absurd (List.eq_nil_of_length_eq_zero (Nat.le_zero.mp hf)) hp
  | succ f =>
    cases p with
    | nil => exact absurd rfl hp
    | cons x xs =>
      show (_ :: batchLoop f _ _) = _
      rw [batchLoop_fuel f (List.drop batch_size (x :: xs)).length _ _
        (length_drop_le hf) (Nat.le_refl _)]

lemma batchLoop_flatten : ∀ (f : Nat) (p : List (List String)) (i : Nat), p.length ≤ f →
    ((batchLoop f p i).map Prod.fst).flatten = p := by
  intro f
  induction f with
  | zero =>
    intro p i hf
    have hp : p = [] := List.eq_nil_of_length_eq_zero (Nat.le_zero.mp hf)
    subst hp; rfl
  | succ f ih =>
    intro p i hf
    cases p with
    | nil => rfl
    | cons x xs =>
      show ((x :: xs).take batch_size ++ _) = _
      rw [ih _ _ (length_drop_le hf), List.take_append_drop]

lemma applyWrites_batchLoop : ∀ (f : Nat) (p : List (List String)) (i : Nat) (g : Grid),
    p.length ≤ f → g.length = i + 1 →
    applyWrites ((batchLoop f p i).map (fun b => WriteOp.insert_rows b.1 b.2)) g = g ++ p := by
  intro f
  induction f with
  | zero =>
    intro p i g hf _
    have hp : p = [] := List.eq_nil_of_length_eq_zero (Nat.le_zero.mp hf)
    subst hp; simp [applyWrites, batchLoop_nil]
  | succ f ih =>
    intro p i g hf hg
    cases p with
    | nil => simp [applyWrites, batchLoop_nil]
    | cons x xs =>
      show applyWrites (WriteOp.insert_rows ((x :: xs).take batch_size) (i + 2) :: _) g = _
      have hstep : applyWrite g (WriteOp.insert_rows ((x :: xs).take batch_size) (i + 2)) =
          g ++ (x :: xs).take batch_size := by
        show g.take (i + 2 - 1) ++ _ ++ g.drop (i + 2 - 1) = _
        have h1 : i + 2 - 1 = i + 1 := by omega
        rw [h1, ← hg, List.take_length, List.drop_length, List.append_nil]
      show applyWrites _ (applyWrite g _) = _
      rw [hstep]
      by_cases hlen : (x :: xs).length ≤ batch_size
      · have hdrop : (x :: xs).drop batch_size = [] := by
          apply List.eq_nil_of_length_eq_zero
          simp only [List.length_drop]
          omega
        rw [hdrop] at *
        have : batchLoop f [] (i + batch_size) = [] := batchLoop_nil _ _
        rw [this]
        show g ++ (x :: xs).take batch_size = g ++ (x :: xs)
        rw [List.take_of_length_le hlen]
      · have htake : ((x :: xs).take batch_size).length = batch_size := by
          simp only [List.length_take]
          omega
        rw [ih _ _ _ (length_drop_le hf) (by rw [List.length_append, hg, htake]; omega),
          List.append_assoc, List.take_append_drop]

/-- The write calls of `replace_sheet` rebuild the value region as the
header row followed by the data rows, in order. -/
lemma replaceGrid_eq (df : Dataset) : replaceGrid df = df.columns :: df.rows := by
  show applyWrites ((batchWrites df.rows).map _) (applyWrite [] (WriteOp.insert_row df.columns 1)) =
    _
  have hhead : applyWrite [] (WriteOp.insert_row df.columns 1) = [df.columns] := rfl
  rw [hhead, batchWrites,
    applyWrites_batchLoop df.rows.length df.rows 0 [df.columns] (Nat.le_refl _) rfl]
  rfl

/-! ### Lemmas about fetching and dataset equality -/

lemma padRow_of_length (n : Nat) (r : List String) (h : r.length = n) : padRow n r = r := by
  simp [padRow, h]

/-- Reading back the tab that `replace_sheet` wrote returns exactly the
dataset that was written, provided its rows all have the header's width. -/
lemma fetch_replaceGrid (df : Dataset)
    (hrect : ∀ r ∈ df.rows, r.length = df.columns.length) :
    fetch_sheet_as_df (some (replaceGrid df)) = some df := by
  rw [replaceGrid_eq]
  show some ⟨df.columns, df.rows.map (padRow df.columns.length)⟩ = some df
  congr 1
  have h2 : df.rows.map (padRow df.columns.length) = df.rows.map id :=
    List.map_congr_left (fun r hr => padRow_of_length _ _ (hrect r hr))
  rw [h2, List.map_id]

lemma dfEquals_iff (a b : Dataset) :
    dfEquals a b = true ↔ a.columns = b.columns ∧ a.rows = b.rows := by
  simp [dfEquals]

lemma dfEquals_iff_eq (a b : Dataset) : dfEquals a b = true ↔ a = b := by
  rw [dfEquals_iff]
  constructor
  · rintro ⟨h1, h2⟩
    cases a; cases b
    simp_all
  · rintro rfl
    exact ⟨rfl, rfl⟩

lemma dfEquals_self (a : Dataset) : dfEquals a a = true := by
  rw [dfEquals_iff_eq]

lemma dfEquals_false_of_ne {a b : Dataset} (h : a ≠ b) : dfEquals a b = false := by
  rw [Bool.eq_false_iff]
  intro he
  exact h ((dfEquals_iff_eq a b).mp he)

end SheetSync

namespace SheetSync

/-! ### Claim theorems about the Synchronizer -/

/-- C2: the Synchronizer writes (creating the tab) when the Remote Reader
result is `None`, writes (replacing the tab) when it is `Some remote`
with `remote` unequal to the local dataset, and performs no write when
`remote` equals the local dataset. -/
theorem C2_sync_decision (L : Dataset) (tab : Option Grid) :
    (fetch_sheet_as_df tab = none →
      syncStep L tab = (TStatus.replaced, some (replaceGrid L))) ∧
    (∀ r, fetch_sheet_as_df tab = some r → dfEquals r L = true →
      syncStep L tab = (TStatus.noChange, tab)) ∧
    (∀ r, fetch_sheet_as_df tab = some r → dfEquals r L = false →
      syncStep L tab = (TStatus.replaced, some (replaceGrid L))) := by
  refine ⟨?_, ?_, ?_⟩
  · intro h
    unfold syncStep
    rw [h]
  · intro r h he
    unfold syncStep
    rw [h]
    simp [he]
  · intro r h he
    unfold syncStep
    rw [h]
    simp [he]

/-- Witness for C2 at a concrete absent tab. -/
theorem C2_sync_decision_witness :
    fetch_sheet_as_df none = none ∧
    syncStep ⟨["a"], [["1"]]⟩ none =
      (TStatus.replaced, some (replaceGrid ⟨["a"], [["1"]]⟩)) :=
  ⟨rfl, (C2_sync_decision ⟨["a"], [["1"]]⟩ none).1 rfl⟩

/-- C3: for a dataset of 250 data rows and batch size 100, the replace
writes the header row first and then exactly three batches of sizes 100,
100, 50 at sheet rows 2, 102, 202, whose concatenation is the data rows
in order. -/
theorem C3_batch_integrity (df : Dataset) (h : df.rows.length = 250) :
    replace_sheet_ops df =
      [WriteOp.insert_row df.columns 1,
       WriteOp.insert_rows (df.rows.take 100) 2,
       WriteOp.insert_rows ((df.rows.drop 100).take 100) 102,
       WriteOp.insert_rows (df.rows.drop 200) 202] ∧
    (df.rows.take 100).length = 100 ∧
    ((df.rows.drop 100).take 100).length = 100 ∧
    (df.rows.drop 200).length = 50 ∧
    df.rows.take 100 ++ (((df.rows.drop 100).take 100) ++ df.rows.drop 200) = df.rows := by
  have hne : df.rows ≠ [] := by
    intro h0
    rw [h0] at h
    simp at h
  have hd100 : (df.rows.drop 100).length = 150 := by simp [List.length_drop, h]
  have hd200 : (df.rows.drop 200).length = 50 := by simp [List.length_drop, h]
  have hne1 : df.rows.drop 100 ≠ [] := by
    intro h0
    rw [h0] at hd100
    simp at hd100
  have hne2 : df.rows.drop 200 ≠ [] := by
    intro h0
    rw [h0] at hd200
    simp at hd200
  have hnil : df.rows.drop 300 = [] := by
    apply List.eq_nil_of_length_eq_zero
    simp [List.length_drop, h]
  refine ⟨?_, ?_, ?_, ?_, ?_⟩
  · show WriteOp.insert_row df.columns 1 :: _ = _
    rw [batchWrites, batchLoop_cons _ _ _ hne (Nat.le_refl _)]
    simp only [batch_size, List.drop_drop, Nat.reduceAdd, Nat.zero_add]
    rw [batchLoop_cons _ _ _ hne1 (Nat.le_refl _)]
    simp only [batch_size, List.drop_drop, Nat.reduceAdd]
    rw [batchLoop_cons _ _ _ hne2 (Nat.le_refl _)]
    simp only [batch_size, List.drop_drop, Nat.reduceAdd, hnil, batchLoop_nil,
      List.map_cons, List.map_nil]
    rw [show List.take 100 (List.drop 200 df.rows) = List.drop 200 df.rows from
      List.take_of_length_le (by rw [hd200]; omega)]
  · simp only [List.length_take]
    omega
  · simp only [List.length_take, List.length_drop]
    omega
  · exact hd200
  · have hsplit : df.rows.drop 200 = (df.rows.drop 100).drop 100 := by
      simp [List.drop_drop]
    rw [hsplit, List.take_append_drop, List.take_append_drop]

/-- A concrete dataset with 250 distinct data rows. -/
def ds250 : Dataset :=
  ⟨["c"], (List.range 250).map (fun k => [Nat.repr k])⟩

/-- Witness for C3 at the concrete 250-row dataset. -/
theorem C3_batch_integrity_witness :
    ds250.rows.length = 250 ∧
    (replace_sheet_ops ds250 =
      [WriteOp.insert_row ds250.columns 1,
       WriteOp.insert_rows (ds250.rows.take 100) 2,
       WriteOp.insert_rows ((ds250.rows.drop 100).take 100) 102,
       WriteOp.insert_rows (ds250.rows.drop 200) 202] ∧
    (ds250.rows.take 100).length = 100 ∧
    ((ds250.rows.drop 100).take 100).length = 100 ∧
    (ds250.rows.drop 200).length = 50 ∧
    ds250.rows.take 100 ++ (((ds250.rows.drop 100).take 100) ++ ds250.rows.drop 200) =
      ds250.rows) :=
  ⟨by simp [ds250], C3_batch_integrity ds250 (by simp [ds250])⟩

/-- C4: Dataset equality as the Synchronizer uses it is string-exact
structural equality: it holds iff the column sequences and row sequences
coincide value-for-value, and any changed cell, changed row sequence, or
changed column sequence falsifies it. -/
theorem C4_equality_sensitivity (A B : Dataset) :
    (dfEquals A B = true ↔ A.columns = B.columns ∧ A.rows = B.rows) ∧
    (A.rows ≠ B.rows → dfEquals A B = false) ∧
    (A.columns ≠ B.columns → dfEquals A B = false) ∧
    (∀ i j v w r, A.rows[i]? = some r → r[j]? = some w → v ≠ w →
      dfEquals A ⟨A.columns, A.rows.set i (r.set j v)⟩ = false) := by
  refine ⟨dfEquals_iff A B, ?_, ?_, ?_⟩
  · intro h
    exact dfEquals_false_of_ne (fun he => h (by rw [he]))
  · intro h
    exact dfEquals_false_of_ne (fun he => h (by rw [he]))
  · intro i j v w r hi hj hvw
    apply dfEquals_false_of_ne
    intro he
    have hrows : A.rows = A.rows.set i (r.set j v) := congrArg Dataset.rows he
    have hilt : i < A.rows.length := (List.getElem?_eq_some_iff.mp hi).1
    have hjlt : j < r.length := (List.getElem?_eq_some_iff.mp hj).1
    have h1 : A.rows[i]? = some (r.set j v) := by
      rw [hrows]
      exact List.getElem?_set_self (by simpa using hilt)
    have h2 : r = r.set j v := by
      rw [hi] at h1
      exact Option.some.inj h1
    have h3 : r[j]? = some v := by
      rw [h2]
      exact List.getElem?_set_self hjlt
    rw [hj] at h3
    exact hvw (Option.some.inj h3).symm

/-- Witness for C4: changing the single cell "1" to "1.0" falsifies the
equality — the comparison is string-exact, not numeric. -/
theorem C4_equality_sensitivity_witness :
    (⟨["a"], [["1"]]⟩ : Dataset).rows[0]? = some ["1"] ∧
    (["1"] : List String)[0]? = some "1" ∧
    ("1.0" : String) ≠ "1" ∧
    dfEquals ⟨["a"], [["1"]]⟩ ⟨["a"], [["1"]].set 0 (["1"].set 0 "1.0")⟩ = false :=
  ⟨rfl, rfl, by decide,
    (C4_equality_sensitivity ⟨["a"], [["1"]]⟩ ⟨["a"], [["1"]]⟩).2.2.2 0 0 "1.0" "1" ["1"]
      rfl rfl (by decide)⟩

/-- C7: the Remote Reader returns `None` exactly when the tab does not
exist; an existing tab with no values yields the empty dataset; otherwise
the first raw row is the header and the later rows become data rows with
missing trailing cells normalized to the empty string. -/
theorem C7_fetch_contract (tab : Option Grid) :
    (fetch_sheet_as_df tab = none ↔ tab = none) ∧
    (tab = some [] → fetch_sheet_as_df tab = some ⟨[], []⟩) ∧
    (∀ h t, tab = some (h :: t) →
      fetch_sheet_as_df tab = some ⟨h, t.map (padRow h.length)⟩) ∧
    (∀ n r, padRow n r = r ++ List.replicate (n - r.length) "") := by
  refine ⟨?_, ?_, ?_, fun n r => rfl⟩
  · rcases tab with _ | g
    · simp [fetch_sheet_as_df]
    · rcases g with _ | ⟨h, t⟩ <;> simp [fetch_sheet_as_df]
  · rintro rfl
    rfl
  · rintro h t rfl
    rfl

/-- Witness for C7 at a concrete tab whose data row is one cell short. -/
theorem C7_fetch_contract_witness :
    some [["a", "b"], ["1"]] = some ([["a", "b"], ["1"]] : Grid) ∧
    fetch_sheet_as_df (some [["a", "b"], ["1"]]) =
      some ⟨["a", "b"], [["1"]].map (padRow (["a", "b"] : List String).length)⟩ ∧
    [["1"]].map (padRow (["a", "b"] : List String).length) = [["1", ""]] :=
  ⟨rfl, (C7_fetch_contract (some [["a", "b"], ["1"]])).2.2.1 ["a", "b"] [["1"]] rfl, rfl⟩

/-- C6: running the per-target synchronization twice with an unchanged
local dataset makes the first run a replace exactly when the remote tab
was absent or differed, reads back exactly the written dataset, and makes
the second run a no-op that leaves the tab untouched. -/
theorem C6_idempotence (df : Dataset) (tab : Option Grid)
    (hrect : ∀ r ∈ df.rows, r.length = df.columns.length) :
    ((syncStep df tab).1 = TStatus.replaced ↔ fetch_sheet_as_df tab ≠ some df) ∧
    ((syncStep df tab).1 = TStatus.replaced →
      fetch_sheet_as_df (syncStep df tab).2 = some df) ∧
    syncStep df ((syncStep df tab).2) = (TStatus.noChange, (syncStep df tab).2) := by
  have hsecond : syncStep df (some (replaceGrid df)) =
      (TStatus.noChange, some (replaceGrid df)) := by
    unfold syncStep
    rw [fetch_replaceGrid df hrect]
    simp [dfEquals_self]
  rcases hf : fetch_sheet_as_df tab with _ | r
  · have hstep : syncStep df tab = (TStatus.replaced, some (replaceGrid df)) := by
      unfold syncStep
      rw [hf]
    refine ⟨?_, ?_, ?_⟩
    · rw [hstep]
      simp
    · intro _
      rw [hstep]
      exact fetch_replaceGrid df hrect
    · rw [hstep]
      exact hsecond
  · by_cases he : dfEquals r df = true
    · have hrd : r = df := (dfEquals_iff_eq r df).mp he
      have hstep : syncStep df tab = (TStatus.noChange, tab) := by
        unfold syncStep
        rw [hf]
        simp [he]
      refine ⟨?_, ?_, ?_⟩
      · rw [hstep, hrd]
        simp
      · rw [hstep]
        intro hcon
        simp at hcon
      · rw [hstep]
        exact hstep
    · rw [Bool.not_eq_true] at he
      have hne : r ≠ df := by
        intro hrd
        subst hrd
        simp [dfEquals_self] at he
      have hstep : syncStep df tab = (TStatus.replaced, some (replaceGrid df)) := by
        unfold syncStep
        rw [hf]
        simp [he]
      refine ⟨?_, ?_, ?_⟩
      · rw [hstep]
        simp [hne]
      · rw [hstep]
        intro _
        exact fetch_replaceGrid df hrect
      · rw [hstep]
        exact hsecond

/-! ### Lemmas about column alignment in `pd.concat` -/

lemma map_lookup_zip : ∀ (cs r : List String), cs.Nodup → r.length = cs.length →
    cs.map (fun c => ((cs.zip r).lookup c).getD "") = r := by
  intro cs
  induction cs with
  | nil =>
    intro r _ hr
    have hr0 : r = [] := List.eq_nil_of_length_eq_zero (by simpa using hr)
    subst hr0
    rfl
  | cons c cs ih =>
    intro r hnd hr
    cases r with
    | nil => simp at hr
    | cons v r =>
      have hno : c ∉ cs := (List.nodup_cons.mp hnd).1
      have hnd' : cs.Nodup := (List.nodup_cons.mp hnd).2
      have hr' : r.length = cs.length := by simpa using hr
      rw [List.map_cons, List.zip_cons_cons]
      congr 1
      · rw [List.lookup_cons_self]
        rfl
      · have hcong : cs.map (fun x => (((c, v) :: cs.zip r).lookup x).getD "") =
            cs.map (fun x => ((cs.zip r).lookup x).getD "") := by
          apply List.map_congr_left
          intro x hx
          have hxc : (x == c) = false := by
            rw [beq_eq_false_iff_ne]
            intro hxeq
            exact hno (hxeq ▸ hx)
          rw [List.lookup_cons, hxc]
        rw [hcong]
        exact ih r hnd' hr'

lemma lookup_zip_not_mem (cs r : List String) (c : String) (h : c ∉ cs) :
    (cs.zip r).lookup c = none := by
  rw [List.lookup_eq_none_iff]
  rintro ⟨a, b⟩ hp
  have ha : a ∈ cs := (List.of_mem_zip hp).1
  rw [bne_iff_ne]
  intro hc
  exact h (hc ▸ ha)

lemma lookup_zip_getElem : ∀ (cs r : List String) (k : Nat) (c : String), cs.Nodup →
    r.length = cs.length → cs[k]? = some c → (cs.zip r).lookup c = r[k]? := by
  intro cs
  induction cs with
  | nil =>
    intro r k c _ _ hk
    simp at hk
  | cons c0 cs ih =>
    intro r k c hnd hr hk
    cases r with
    | nil => simp at hr
    | cons v r =>
      have hno : c0 ∉ cs := (List.nodup_cons.mp hnd).1
      have hnd' : cs.Nodup := (List.nodup_cons.mp hnd).2
      have hr' : r.length = cs.length := by simpa using hr
      cases k with
      | zero =>
        have hc : c = c0 := by simpa using hk.symm
        subst hc
        rw [List.zip_cons_cons, List.lookup_cons_self]
        simp
      | succ k =>
        have hk' : cs[k]? = some c := by simpa using hk
        have hmem : c ∈ cs := List.getElem?_mem hk'
        have hcc : (c == c0) = false := by
          rw [beq_eq_false_iff_ne]
          intro he
          exact hno (he ▸ hmem)
        rw [List.zip_cons_cons, List.lookup_cons, hcc, ih r k c hnd' hr' hk']
        simp

lemma reindexRow_self (cs ex r : List String) (hnd : cs.Nodup)
    (hlen : r.length = cs.length) (hex : ∀ e ∈ ex, e ∉ cs) :
    reindexRow (cs ++ ex) cs r = r ++ List.replicate ex.length "" := by
  unfold reindexRow
  rw [List.map_append]
  congr 1
  · exact map_lookup_zip cs r hnd hlen
  · rw [List.eq_replicate_iff]
    refine ⟨by simp, ?_⟩
    intro b hb
    rw [List.mem_map] at hb
    obtain ⟨e, he, hbe⟩ := hb
    rw [lookup_zip_not_mem cs r e (hex e he)] at hbe
    exact hbe.symm

lemma reindexRow_id (cs r : List String) (hnd : cs.Nodup)
    (hlen : r.length = cs.length) : reindexRow cs cs r = r := by
  have h := reindexRow_self cs [] r hnd hlen (by simp)
  simpa using h

lemma reindexRow_absent (u cols r : List String) (j : Nat) (c : String)
    (hj : u[j]? = some c) (hc : c ∉ cols) :
    (reindexRow u cols r)[j]? = some "" := by
  unfold reindexRow
  rw [List.getElem?_map, hj]
  show some ((List.lookup c (cols.zip r)).getD "") = some ""
  rw [lookup_zip_not_mem cols r c hc]
  rfl

lemma reindexRow_own (u cols r : List String) (j k : Nat) (c : String)
    (hj : u[j]? = some c) (hnd : cols.Nodup) (hk : cols[k]? = some c)
    (hlen : r.length = cols.length) :
    (reindexRow u cols r)[j]? = r[k]? := by
  unfold reindexRow
  rw [List.getElem?_map, hj]
  show some ((List.lookup c (cols.zip r)).getD "") = r[k]?
  rw [lookup_zip_getElem cols r k c hnd hlen hk]
  have hklt : k < cols.length := (List.getElem?_eq_some_iff.mp hk).1
  rw [List.getElem?_eq_getElem (show k < r.length by omega)]
  rfl

lemma foldl_addCol (cs : List String) : ∀ (acc : List String), cs.Nodup →
    cs.foldl addCol acc = acc ++ cs.filter (fun c => decide (c ∉ acc)) := by
  induction cs with
  | nil =>
    intro acc _
    simp
  | cons c cs ih =>
    intro acc hnd
    have hno : c ∉ cs := (List.nodup_cons.mp hnd).1
    have hnd' : cs.Nodup := (List.nodup_cons.mp hnd).2
    show cs.foldl addCol (addCol acc c) = _
    by_cases hc : c ∈ acc
    · have h1 : addCol acc c = acc := by simp [addCol, hc]
      rw [h1, ih acc hnd', List.filter_cons]
      simp [hc]
    · have h1 : addCol acc c = acc ++ [c] := by simp [addCol, hc]
      rw [h1, ih (acc ++ [c]) hnd']
      have h2 : cs.filter (fun x => decide (x ∉ acc ++ [c])) =
          cs.filter (fun x => decide (x ∉ acc)) := by
        apply List.filter_congr
        intro x hx
        have hxc : x ≠ c := fun he => hno (he ▸ hx)
        rw [decide_eq_decide]
        simp [List.mem_append, hxc]
      rw [h2, List.filter_cons]
      simp only [hc, decide_not, List.append_assoc]
      simp

lemma unionCols_pair (d1 d2 : Dataset) (hnd1 : d1.columns.Nodup)
    (hnd2 : d2.columns.Nodup) :
    unionCols [d1, d2] =
      d1.columns ++ d2.columns.filter (fun c => decide (c ∉ d1.columns)) := by
  show (d2.columns.foldl addCol (d1.columns.foldl addCol [])) = _
  have h1 : d1.columns.filter (fun c => decide (c ∉ ([] : List String))) = d1.columns := by
    apply List.filter_eq_self.mpr
    intro a _
    simp
  rw [foldl_addCol d1.columns [] hnd1, h1]
  simp only [List.nil_append]
  rw [foldl_addCol d2.columns d1.columns hnd2]

lemma concatDfs_pair (d1 d2 : Dataset) (hnd1 : d1.columns.Nodup)
    (hnd2 : d2.columns.Nodup)
    (hr1 : ∀ r ∈ d1.rows, r.length = d1.columns.length) :
    concatDfs [d1, d2] =
      ⟨d1.columns ++ d2.columns.filter (fun c => decide (c ∉ d1.columns)),
        d1.rows.map (fun r =>
          r ++ List.replicate
            (d2.columns.filter (fun c => decide (c ∉ d1.columns))).length "") ++
        d2.rows.map (reindexRow
          (d1.columns ++ d2.columns.filter (fun c => decide (c ∉ d1.columns)))
          d2.columns)⟩ := by
  unfold concatDfs
  rw [unionCols_pair d1 d2 hnd1 hnd2]
  simp only [List.flatMap_cons, List.flatMap_nil, List.append_nil]
  have hmap : List.map (reindexRow
        (d1.columns ++ List.filter (fun c => decide (c ∉ d1.columns)) d2.columns)
        d1.columns) d1.rows =
      List.map (fun r => r ++ List.replicate
        (List.filter (fun c => decide (c ∉ d1.columns)) d2.columns).length "") d1.rows := by
    apply List.map_congr_left
    intro r hr
    exact reindexRow_self d1.columns _ r hnd1 (hr1 r hr)
      (fun e he => by
        have := List.of_mem_filter he
        simpa using this)
  rw [hmap]

lemma concatDfs_pair_same (d1 d2 : Dataset) (hnd : d1.columns.Nodup)
    (hc : d2.columns = d1.columns)
    (hr1 : ∀ r ∈ d1.rows, r.length = d1.columns.length)
    (hr2 : ∀ r ∈ d2.rows, r.length = d1.columns.length) :
    concatDfs [d1, d2] = ⟨d1.columns, d1.rows ++ d2.rows⟩ := by
  have hnd2 : d2.columns.Nodup := by rw [hc]; exact hnd
  have hfil : d2.columns.filter (fun c => decide (c ∉ d1.columns)) = [] := by
    rw [List.filter_eq_nil_iff]
    intro a ha
    rw [hc] at ha
    simp [ha]
  rw [concatDfs_pair d1 d2 hnd hnd2 hr1, hfil]
  have e1 : d1.rows.map
      (fun r => r ++ List.replicate (List.length ([] : List String)) "") = d1.rows := by
    have h2 : d1.rows.map
        (fun r => r ++ List.replicate (List.length ([] : List String)) "") =
        d1.rows.map id := by
      apply List.map_congr_left
      intro r _
      simp
    rw [h2, List.map_id]
  have e2 : d2.rows.map (reindexRow (d1.columns ++ []) d2.columns) = d2.rows := by
    have h3 : d2.rows.map (reindexRow (d1.columns ++ []) d2.columns) =
        d2.rows.map id := by
      apply List.map_congr_left
      intro r hr
      show reindexRow (d1.columns ++ []) d2.columns r = r
      rw [List.append_nil, ← hc]
      exact reindexRow_id d2.columns r hnd2 (by rw [hc]; exact hr2 r hr)
    rw [h3, List.map_id]
  rw [e1, e2]
  simp

lemma concatDfs_singleton (d : Dataset) (hnd : d.columns.Nodup)
    (hr : ∀ r ∈ d.rows, r.length = d.columns.length) :
    concatDfs [d] = d := by
  unfold concatDfs
  have hu : unionCols [d] = d.columns := by
    show d.columns.foldl addCol [] = d.columns
    rw [foldl_addCol d.columns [] hnd]
    have h1 : d.columns.filter (fun c => decide (c ∉ ([] : List String))) = d.columns := by
      apply List.filter_eq_self.mpr
      intro a _
      simp
    rw [h1]
    rfl
  rw [hu]
  simp only [List.flatMap_cons, List.flatMap_nil, List.append_nil]
  have h2 : d.rows.map (reindexRow d.columns d.columns) = d.rows.map id := by
    apply List.map_congr_left
    intro r hrr
    exact reindexRow_id d.columns r hnd (hr r hrr)
  rw [h2, List.map_id]

/-- C9: when a target's source path does not exist the target is only
skipped: the remaining targets are processed exactly as they would have
been, and the skip is recorded in the status list. -/
theorem C9_missing_path_skips (fs : FS) (rem : Remote) (e : Entry) (rest : List Entry)
    (tabs : Tabs) (h : fs.pathExists e.path = false) :
    process_entries fs rem (e :: rest) tabs =
      (process_entries fs rem rest tabs).map
        (fun x => (TStatus.skipped :: x.1, x.2)) := by
  simp only [process_entries, h]
  rcases hres : process_entries fs rem rest tabs with err | ⟨sts, tabs1⟩ <;>
    simp [Except.map]

/-- A spreadsheet with no tabs yet. -/
def tabs0 : Tabs := fun _ => none

/-- Filesystem for the two-target run of C9: only `b.csv` exists, and any
CSV read succeeds with a one-cell dataset naming the file. -/
def fsW : FS where
  isDir := fun _ => false
  pathExists := fun p => p == "b.csv"
  listdir := fun _ => []
  readCsv := fun _ p => .ok ⟨["c"], [[p]]⟩
  readParquet := fun _ => .error (.apiError "no parquet")

/-- A remote service that never fails. -/
def remOk : Remote where
  fetchFail := fun _ => none
  replaceFail := fun _ => none

/-- Witness for C9: with the first target's path missing, the run reports
it skipped and still replaces the second target's tab. -/
theorem C9_missing_path_skips_witness :
    fsW.pathExists "a.csv" = false ∧
    (process_entries fsW remOk [⟨"tab1", "a.csv"⟩, ⟨"tab2", "b.csv"⟩] tabs0).map
        (fun x => x.1) =
      .ok [TStatus.skipped, TStatus.replaced] := by
  refine ⟨rfl, ?_⟩
  rw [C9_missing_path_skips fsW remOk ⟨"tab1", "a.csv"⟩ [⟨"tab2", "b.csv"⟩] tabs0 rfl]
  rfl

/-- Filesystem for the C1 runs: every path exists as a readable CSV
file. -/
def fsC : FS where
  isDir := fun _ => false
  pathExists := fun _ => true
  listdir := fun _ => []
  readCsv := fun _ p => .ok ⟨["c"], [[p]]⟩
  readParquet := fun _ => .error (.apiError "no parquet")

/-- A remote service whose fetch of `tab1` fails with a quota error. -/
def remC : Remote where
  fetchFail := fun n => if n = "tab1" then some (.apiError "quota exceeded") else none
  replaceFail := fun _ => none

/-- C1 counterexample: in a two-target run whose first target hits a
remote failure during fetch (after its source path was found to exist),
`process_all`'s entry loop has no exception handler, so the whole run
stops with that error and the second target is never processed — while
the second target alone would have been replaced. -/
theorem C1_counterexample :
    process_entries fsC remC [⟨"tab1", "a.csv"⟩, ⟨"tab2", "b.csv"⟩] tabs0 =
      .error (PyError.apiError "quota exceeded") ∧
    (process_entries fsC remC [⟨"tab2", "b.csv"⟩] tabs0).map (fun x => x.1) =
      .ok [TStatus.replaced] :=
  ⟨rfl, rfl⟩

/-- C1 amended: only a missing source path is tolerated per target; any
error raised after the path exists — a parse failure inside
`read_path_to_df`, a remote failure during fetch, or a remote failure
during replace — propagates out of the entry loop and aborts the
remaining targets. -/
theorem C1_target_error_propagates (fs : FS) (rem : Remote) (e : Entry)
    (rest : List Entry) (tabs : Tabs) (hex : fs.pathExists e.path = true) :
    (∀ err, read_path_to_df fs e.path = .error err →
      process_entries fs rem (e :: rest) tabs = .error err) ∧
    (∀ df err, read_path_to_df fs e.path = .ok df →
      rem.fetchFail e.sheet_name = some err →
      process_entries fs rem (e :: rest) tabs = .error err) ∧
    (∀ df err, read_path_to_df fs e.path = .ok df →
      rem.fetchFail e.sheet_name = none →
      (∀ r, fetch_sheet_as_df (tabs e.sheet_name) = some r → dfEquals r df = false) →
      rem.replaceFail e.sheet_name = some err →
      process_entries fs rem (e :: rest) tabs = .error err) := by
  refine ⟨?_, ?_, ?_⟩
  · intro err hread
    simp [process_entries, hex, hread]
  · intro df err hread hfetch
    simp [process_entries, hex, hread, hfetch]
  · intro df err hread hfetch hdiff hrep
    simp only [process_entries, hex, hread, hfetch]
    rcases hf : fetch_sheet_as_df (tabs e.sheet_name) with _ | r
    · simp [hrep]
    · simp [hdiff r hf, hrep]

/-- Witness for the amended C1 at the concrete two-target run. -/
theorem C1_target_error_propagates_witness :
    fsC.pathExists "a.csv" = true ∧
    read_path_to_df fsC "a.csv" = .ok ⟨["c"], [["a.csv"]]⟩ ∧
    remC.fetchFail "tab1" = some (PyError.apiError "quota exceeded") ∧
    process_entries fsC remC [⟨"tab1", "a.csv"⟩, ⟨"tab2", "b.csv"⟩] tabs0 =
      .error (PyError.apiError "quota exceeded") :=
  ⟨rfl, rfl, rfl,
    (C1_target_error_propagates fsC remC ⟨"tab1", "a.csv"⟩ [⟨"tab2", "b.csv"⟩] tabs0
      rfl).2.1 ⟨["c"], [["a.csv"]]⟩ (PyError.apiError "quota exceeded") rfl rfl⟩

/-- Parser oracle for C5 where every encoding raises
`UnicodeDecodeError`. -/
def fs5 : FS where
  isDir := fun _ => false
  pathExists := fun _ => true
  listdir := fun _ => []
  readCsv := fun enc _ => .error (.unicodeDecodeError enc)
  readParquet := fun _ => .error (.apiError "no parquet")

/-- Parser oracle for C5 where only the utf-8 attempt fails; every other
encoding would succeed and reports which encoding was used. -/
def fs5b : FS where
  isDir := fun _ => false
  pathExists := fun _ => true
  listdir := fun _ => []
  readCsv := fun enc p =>
    if enc = "utf-8" then .error (.unicodeDecodeError "invalid start byte")
    else .ok ⟨[enc], [[p]]⟩
  readParquet := fun _ => .error (.apiError "no parquet")

/-- Parser oracle for C5 where every encoding would succeed. -/
def fs5c : FS where
  isDir := fun _ => false
  pathExists := fun _ => true
  listdir := fun _ => []
  readCsv := fun enc p => .ok ⟨[enc], [[p]]⟩
  readParquet := fun _ => .error (.apiError "no parquet")

/-- C5: the Loader tries exactly the four encodings in priority order and
the first that decodes wins; but when every encoding fails, the code's
`raise UnicodeDecodeError(msg)` passes one argument to a five-argument
constructor, so the run fails with a `TypeError` whose message does not
name the file's path. -/
theorem C5_encoding_fallback :
    encodings_to_try = ["utf-8", "latin-1", "iso-8859-1", "cp1252"] ∧
    read_csv_with_encoding fs5c "f.csv" = .ok ⟨["utf-8"], [["f.csv"]]⟩ ∧
    read_csv_with_encoding fs5b "f.csv" = .ok ⟨["latin-1"], [["f.csv"]]⟩ ∧
    read_csv_with_encoding fs5 "f.csv" =
      .error (PyError.typeError "function takes exactly 5 arguments (1 given)") ∧
    read_csv_with_encoding fs5 "f.csv" = read_csv_with_encoding fs5 "g.csv" :=
  ⟨rfl, rfl, rfl, rfl, rfl⟩

/-- C8: a directory is enumerated in lexicographic order, recognized
`.csv` entries are parsed, unrecognized extensions are skipped, and the
parsed datasets are concatenated in that order: with files `b.csv`,
`notes.txt`, `a.csv` on disk, the result holds `a.csv`'s rows before
`b.csv`'s rows; the second clause shows a `.parquet` entry is parsed
too. -/
theorem C8_directory_order (fs : FS) (p : String) (d1 d2 : Dataset)
    (hdir : fs.isDir p = true)
    (hls : fs.listdir p = ["b.csv", "notes.txt", "a.csv"])
    (h1 : read_csv_with_encoding fs (p ++ "/" ++ "a.csv") = .ok d1)
    (h2 : read_csv_with_encoding fs (p ++ "/" ++ "b.csv") = .ok d2)
    (hnd : d1.columns.Nodup) (hc : d2.columns = d1.columns)
    (hr1 : ∀ r ∈ d1.rows, r.length = d1.columns.length)
    (hr2 : ∀ r ∈ d2.rows, r.length = d1.columns.length) :
    read_path_to_df fs p = .ok ⟨d1.columns, d1.rows ++ d2.rows⟩ ∧
    pySorted ["b.csv", "notes.txt", "a.csv"] = ["a.csv", "b.csv", "notes.txt"] ∧
    (∀ (fs2 : FS) (p2 : String) (d : Dataset), fs2.isDir p2 = true →
      fs2.listdir p2 = ["x.parquet"] →
      fs2.readParquet (p2 ++ "/" ++ "x.parquet") = .ok d →
      d.columns.Nodup → (∀ r ∈ d.rows, r.length = d.columns.length) →
      read_path_to_df fs2 p2 = .ok d) := by
  have hsort : pySorted ["b.csv", "notes.txt", "a.csv"] =
      ["a.csv", "b.csv", "notes.txt"] := by decide
  refine ⟨?_, hsort, ?_⟩
  · have ea : strLower (splitext_ext "a.csv") = ".csv" := by decide
    have eb : strLower (splitext_ext "b.csv") = ".csv" := by decide
    have et : strLower (splitext_ext "notes.txt") = ".txt" := by decide
    have hcoll : collectDir fs p (pySorted (fs.listdir p)) = [d1, d2] := by
      rw [hls, hsort]
      unfold collectDir
      simp only [List.foldl_cons, List.foldl_nil, ea, eb, et, h1, h2]
      simp
    unfold read_path_to_df
    rw [hdir, hcoll]
    simp [concatDfs_pair_same d1 d2 hnd hc hr1 hr2]
  · intro fs2 p2 d hdir2 hls2 hpq hndd hrd
    have ep : strLower (splitext_ext "x.parquet") = ".parquet" := by decide
    have hsort2 : pySorted ["x.parquet"] = ["x.parquet"] := by decide
    have hcoll2 : collectDir fs2 p2 (pySorted (fs2.listdir p2)) = [d] := by
      rw [hls2, hsort2]
      unfold collectDir
      simp only [List.foldl_cons, List.foldl_nil, ep, hpq]
      simp
    unfold read_path_to_df
    rw [hdir2, hcoll2]
    simp [concatDfs_singleton d hndd hrd]

/-- Filesystem for the C8 witness: a directory holding `b.csv`,
`notes.txt` and `a.csv`, whose CSV parses depend only on the file. -/
def fs8 : FS where
  isDir := fun _ => true
  pathExists := fun _ => true
  listdir := fun _ => ["b.csv", "notes.txt", "a.csv"]
  readCsv := fun _ full =>
    if full = "dir/a.csv" then .ok ⟨["c"], [["a1"], ["a2"]]⟩
    else .ok ⟨["c"], [["b1"]]⟩
  readParquet := fun _ => .error (.apiError "no parquet")

/-- Witness for C8: the loaded rows are `a.csv`'s rows then `b.csv`'s
rows, although the raw listing names `b.csv` first. -/
theorem C8_directory_order_witness :
    fs8.isDir "dir" = true ∧
    fs8.listdir "dir" = ["b.csv", "notes.txt", "a.csv"] ∧
    read_csv_with_encoding fs8 ("dir" ++ "/" ++ "a.csv") = .ok ⟨["c"], [["a1"], ["a2"]]⟩ ∧
    read_csv_with_encoding fs8 ("dir" ++ "/" ++ "b.csv") = .ok ⟨["c"], [["b1"]]⟩ ∧
    read_path_to_df fs8 "dir" = .ok ⟨["c"], [["a1"], ["a2"]] ++ [["b1"]]⟩ :=
  ⟨rfl, rfl, rfl, rfl,
    (C8_directory_order fs8 "dir" ⟨["c"], [["a1"], ["a2"]]⟩ ⟨["c"], [["b1"]]⟩ rfl rfl rfl rfl
      (by decide) rfl (by decide) (by decide)).1⟩

/-- C10: when a directory holds two recognized files whose column sets
differ, the Loader succeeds and returns the concatenation over the union
of the columns — the first file's columns first, then the second file's
new columns — with every cell of a column absent from a file's rows
filled with the empty string, and every cell of a column the file does
have taken from the file's own row. -/
theorem C10_directory_column_union (fs : FS) (p : String) (d1 d2 : Dataset)
    (hdir : fs.isDir p = true)
    (hls : fs.listdir p = ["a.csv", "b.csv"])
    (h1 : read_csv_with_encoding fs (p ++ "/" ++ "a.csv") = .ok d1)
    (h2 : read_csv_with_encoding fs (p ++ "/" ++ "b.csv") = .ok d2)
    (hnd1 : d1.columns.Nodup) (hnd2 : d2.columns.Nodup)
    (hr1 : ∀ r ∈ d1.rows, r.length = d1.columns.length) :
    read_path_to_df fs p =
      .ok ⟨d1.columns ++ d2.columns.filter (fun c => decide (c ∉ d1.columns)),
        d1.rows.map (fun r => r ++ List.replicate
          (d2.columns.filter (fun c => decide (c ∉ d1.columns))).length "") ++
        d2.rows.map (reindexRow
          (d1.columns ++ d2.columns.filter (fun c => decide (c ∉ d1.columns)))
          d2.columns)⟩ ∧
    (∀ (r : List String) (j : Nat) (c : String),
      (d1.columns ++ d2.columns.filter (fun c => decide (c ∉ d1.columns)))[j]? = some c →
      c ∉ d2.columns →
      (reindexRow (d1.columns ++ d2.columns.filter (fun c => decide (c ∉ d1.columns)))
        d2.columns r)[j]? = some "") ∧
    (∀ (r : List String) (j k : Nat) (c : String),
      (d1.columns ++ d2.columns.filter (fun c => decide (c ∉ d1.columns)))[j]? = some c →
      d2.columns[k]? = some c → r.length = d2.columns.length →
      (reindexRow (d1.columns ++ d2.columns.filter (fun c => decide (c ∉ d1.columns)))
        d2.columns r)[j]? = r[k]?) := by
  refine ⟨?_, ?_, ?_⟩
  · have ea : strLower (splitext_ext "a.csv") = ".csv" := by decide
    have eb : strLower (splitext_ext "b.csv") = ".csv" := by decide
    have hsort : pySorted ["a.csv", "b.csv"] = ["a.csv", "b.csv"] := by decide
    have hcoll : collectDir fs p (pySorted (fs.listdir p)) = [d1, d2] := by
      rw [hls, hsort]
      unfold collectDir
      simp only [List.foldl_cons, List.foldl_nil, ea, eb, h1, h2]
      simp
    unfold read_path_to_df
    rw [hdir, hcoll]
    simp [concatDfs_pair d1 d2 hnd1 hnd2 hr1]
  · intro r j c hj hc
    exact reindexRow_absent _ d2.columns r j c hj hc
  · intro r j k c hj hk hlen
    exact reindexRow_own _ d2.columns r j k c hj hnd2 hk hlen

/-- Filesystem for the C10 witness: `a.csv` parses with column `a`,
`b.csv` with the different column `b`. -/
def fs10 : FS where
  isDir := fun _ => true
  pathExists := fun _ => true
  listdir := fun _ => ["a.csv", "b.csv"]
  readCsv := fun _ full =>
    if full = "dir/a.csv" then .ok ⟨["a"], [["1"]]⟩
    else .ok ⟨["b"], [["2"]]⟩
  readParquet := fun _ => .error (.apiError "no parquet")

/-- Witness for C10: the mismatched columns of the two files produce the
union `[a, b]` with empty-string fill, not a failure. -/
theorem C10_directory_column_union_witness :
    fs10.listdir "dir" = ["a.csv", "b.csv"] ∧
    read_path_to_df fs10 "dir" = .ok ⟨["a", "b"], [["1", ""], ["", "2"]]⟩ := by
  refine ⟨rfl, ?_⟩
  rw [(C10_directory_column_union fs10 "dir" ⟨["a"], [["1"]]⟩ ⟨["b"], [["2"]]⟩ rfl rfl rfl rfl
    (by decide) (by decide) (by decide)).1]
  rfl

/-- Witness for C6: a one-row dataset against an initially absent tab. -/
theorem C6_idempotence_witness :
    (∀ r ∈ (⟨["a"], [["1"]]⟩ : Dataset).rows,
      r.length = (⟨["a"], [["1"]]⟩ : Dataset).columns.length) ∧
    ((syncStep ⟨["a"], [["1"]]⟩ none).1 = TStatus.replaced ↔
      fetch_sheet_as_df none ≠ some ⟨["a"], [["1"]]⟩) ∧
    ((syncStep ⟨["a"], [["1"]]⟩ none).1 = TStatus.replaced →
      fetch_sheet_as_df (syncStep ⟨["a"], [["1"]]⟩ none).2 = some ⟨["a"], [["1"]]⟩) ∧
    syncStep ⟨["a"], [["1"]]⟩ ((syncStep ⟨["a"], [["1"]]⟩ none).2) =
      (TStatus.noChange, (syncStep ⟨["a"], [["1"]]⟩ none).2) :=
  ⟨by decide, C6_idempotence ⟨["a"], [["1"]]⟩ none (by decide)⟩

end SheetSync
